import Mathlib

/-!
Shallow embedding of the tradable-instrument selection pipeline of the
crypto-trading-platform repository: the instrument snapshot model
(struct MarketInfo / struct TickerInfo), the PairFilter catalog
(StaticPairListFilter, VolumePairListFilter, SpreadFilter, BlacklistFilter,
PriceFilter, VolatilityFilter, AgeFilter, OffsetFilter, ShuffleFilter,
PerformanceFilter, ProducerPairList, MarketCapPairList), the factory
(PairFilterFactory) and the pipeline manager (PairListManager).

Modelling conventions:
- C++ `double` fields are modelled as rationals (ℚ).  This is exact for the
  comparisons the filters perform on ordinary finite values; the one place
  where IEEE-754 semantics genuinely diverge (division by a zero last price
  in `TickerInfo::getVolatility`) is treated separately and not decided here.
- C++ `int` / `unsigned int` are modelled as ℤ / ℕ.
- `std::map` snapshots handed to the filters are modelled as association
  lists queried with `List.lookup` (the filters only ever call `find`).
- `std::sort` gives no guarantee beyond "the result is a permutation that is
  sorted with respect to the comparator"; its behaviour on equal elements is
  unspecified.  It is therefore modelled as a parameter `sortf` constrained
  by the contract `SortSpec` below, and theorems quantify over every
  conforming implementation.
- `std::shuffle` over `std::mt19937` is likewise modelled as a parameter:
  a deterministic function of the seed for a non-zero configured seed, and a
  per-run arbitrary permutation `rnd` for seed 0 (`std::random_device`).
- out-of-bounds vector indexing (possible in `OffsetFilter::filter` for a
  negative configured offset) has no defined result in C++; the embedding
  returns `none` in exactly those cases.
-/

namespace CT

/-- Sort keys of VolumePairListFilter (source: enum class SortKey). -/
inductive SortKey
  | QuoteVolume
  | Volume
  | PriceChange
  | Volatility
deriving DecidableEq

/-- Per-pair live statistics (source: struct TickerInfo); doubles as ℚ. -/
structure TickerInfo where
  symbol : String
  last_price : ℚ
  bid : ℚ
  ask : ℚ
  high_24h : ℚ
  low_24h : ℚ
  volume_24h : ℚ
  quote_volume_24h : ℚ
  price_change_percent_24h : ℚ
deriving DecidableEq

/-- Source: TickerInfo::getSpread, ask - bid. -/
def TickerInfo.getSpread (t : TickerInfo) : ℚ := t.ask - t.bid

/-- Source: TickerInfo::getSpreadRatio (renamed), (ask - bid) / ask. -/
def TickerInfo.getSpreadRat (t : TickerInfo) : ℚ := (t.ask - t.bid) / t.ask

/-- Source: TickerInfo::getVolatility, (high_24h - low_24h) / last_price.
Note: over ℚ, division by zero yields 0; the C++ source divides doubles, so
for a zero last price the two semantics differ (see the development notes on
the volatility claims). -/
def TickerInfo.getVolatility (t : TickerInfo) : ℚ :=
  (t.high_24h - t.low_24h) / t.last_price

/-- Per-pair market metadata (source: struct MarketInfo).  Only the fields
the pipeline reads are modelled; `listed_date` is kept at hour granularity
(`listed_hours`), matching the `duration_cast<hours>` the AgeFilter applies
before dividing by 24. -/
structure MarketInfo where
  symbol : String
  active : Bool
  listed_hours : ℤ
  market_cap : ℚ
  market_cap_rank : ℤ
deriving DecidableEq

/-- Ticker snapshot handed to every filter (std::map<string, TickerInfo>). -/
abbrev Tickers := List (String × TickerInfo)

/-- The metric selected by `sort_key_` in VolumePairListFilter::filter. -/
def metricValue (k : SortKey) (t : TickerInfo) : ℚ :=
  match k with
  | .QuoteVolume => t.quote_volume_24h
  | .Volume => t.volume_24h
  | .PriceChange => |t.price_change_percent_24h|
  | .Volatility => t.getVolatility

/-- Metric of a symbol as looked up in a ticker snapshot (0 when absent; the
filters only evaluate it on symbols present in the snapshot). -/
def tickMetric (tk : Tickers) (k : SortKey) (p : String) : ℚ :=
  match List.lookup p tk with
  | some t => metricValue k t
  | none => 0

/-- The ordering the two ranking filters sort by: second components
(the ranking metric) non-increasing.  This is the comparator
`a.value > b.value` of the source understood as the induced weak order. -/
def ge2 (a b : String × ℚ) : Prop := b.2 ≤ a.2

instance : DecidableRel ge2 := fun a b => inferInstanceAs (Decidable (b.2 ≤ a.2))

instance : IsTotal (String × ℚ) ge2 := ⟨fun a b => le_total b.2 a.2⟩

instance : IsTrans (String × ℚ) ge2 := ⟨fun _ _ _ h1 h2 => le_trans h2 h1⟩

/-- Contract of `std::sort` with comparator `a.value > b.value`: the result
is a permutation of the input, sorted with the metric non-increasing.  The
C++ standard guarantees nothing further - in particular nothing about the
relative order of elements with equal metric. -/
def SortSpec (s : List (String × ℚ) → List (String × ℚ)) : Prop :=
  ∀ l, (s l).Perm l ∧ (s l).Sorted ge2

/-- A concrete conforming `std::sort` implementation: insertion sort. -/
def insertionSortDesc (l : List (String × ℚ)) : List (String × ℚ) :=
  l.insertionSort ge2

theorem sortSpec_insertionSortDesc : SortSpec insertionSortDesc := fun l =>
  ⟨List.perm_insertionSort ge2 l, List.sorted_insertionSort ge2 l⟩

/-- Another conforming `std::sort` implementation: reverse the input, then
insertion sort.  It satisfies the `std::sort` contract but places elements of
equal metric in the opposite of their input order. -/
def revInsertionSort (l : List (String × ℚ)) : List (String × ℚ) :=
  insertionSortDesc l.reverse

theorem sortSpec_revInsertionSort : SortSpec revInsertionSort := fun l =>
  ⟨(List.perm_insertionSort ge2 l.reverse).trans l.reverse_perm,
   List.sorted_insertionSort ge2 l.reverse⟩

/-- Common selection shape of the two ranking filters: walk the input pairs
in order, keep those for which the selector yields a value, and record the
value alongside the symbol. -/
def selectWith (g : String → Option ℚ) (pairs : List String) : List (String × ℚ) :=
  pairs.filterMap (fun p => (g p).map (fun v => (p, v)))

/-- The `count = min(number_assets, size)` / `for i < count` idiom closing
both ranking filters (take the top `n`, where a negative `n` keeps none). -/
def takeTopN {α : Type} (n : ℤ) (l : List α) : List α :=
  l.take ((min n (l.length : ℤ)).toNat)

/-- Per-symbol selector of VolumePairListFilter::filter: skip symbols with
no ticker entry, compute the configured metric, skip values below
`min_value_`. -/
def volumeSel (k : SortKey) (minv : ℚ) (tk : Tickers) (p : String) : Option ℚ :=
  match List.lookup p tk with
  | none => none
  | some t =>
    let v := metricValue k t
    if v < minv then none else some v

/-- VolumePairListFilter::filter: select symbols with ticker data and metric
at least `min_value_`, sort by the metric descending with `std::sort`
(modelled by the `sortf` parameter), keep the top `number_assets_`. -/
def volumeFilter (sortf : List (String × ℚ) → List (String × ℚ))
    (numberAssets : ℤ) (minv : ℚ) (k : SortKey) (tk : Tickers)
    (pairs : List String) : List String :=
  (takeTopN numberAssets (sortf (selectWith (volumeSel k minv tk) pairs))).map Prod.fst

/-- The `market_map[market.symbol] = market` loop of the source builds a
std::map in which a later record with the same symbol overwrites an earlier
one; a lookup therefore finds the last matching record. -/
def lastLookup (markets : List MarketInfo) (p : String) : Option MarketInfo :=
  markets.reverse.find? (fun m => m.symbol == p)

/-- Per-symbol selector of MarketCapPairList::filter: skip symbols with no
market entry, keep only those with `0 < market_cap_rank ≤ max_rank_`, and
record the market cap as the ranking metric. -/
def marketCapSel (maxRank : ℤ) (markets : List MarketInfo) (p : String) : Option ℚ :=
  match lastLookup markets p with
  | none => none
  | some mk =>
    if 0 < mk.market_cap_rank ∧ mk.market_cap_rank ≤ maxRank then
      some mk.market_cap
    else none

/-- MarketCapPairList::filter for a set market provider: select symbols with
a known, sufficiently low rank, sort by market cap descending with
`std::sort`, keep the top `number_assets_`. -/
def marketCapFilter (sortf : List (String × ℚ) → List (String × ℚ))
    (numberAssets maxRank : ℤ) (markets : List MarketInfo)
    (pairs : List String) : List String :=
  (takeTopN numberAssets (sortf (selectWith (marketCapSel maxRank markets) pairs))).map Prod.fst

/-- OffsetFilter::filter.  `start = min(offset, size)`; `end = size` or
`min(start + number_assets, size)` when `number_assets > 0`; the loop reads
`pairs[i]` for `start ≤ i < end`.  When `offset < 0` and the loop body runs,
the first read `pairs[start]` is out of bounds - undefined behaviour in the
source, modelled as `none`. -/
def offsetChecked (offset numberAssets : ℤ) (pairs : List String) :
    Option (List String) :=
  let size : ℤ := pairs.length
  let start := min offset size
  let stop := if 0 < numberAssets then min (start + numberAssets) size else size
  if start < 0 ∧ start < stop then none
  else some (((pairs.drop start.toNat).take (stop - start).toNat))

/-- Days listed, as AgeFilter::filter computes it:
`duration_cast<hours>(now - listed_date).count() / 24` with C++ integer
division (truncation toward zero, `Int.div`). -/
def daysListed (nowHours : ℤ) (mk : MarketInfo) : ℤ :=
  (nowHours - mk.listed_hours).tdiv 24

/-- The filter catalog (source: the twelve concrete subclasses of
PairFilter).  Each constructor carries the filter-local configuration
fields; the optional per-filter providers (market metadata, performance
scores, remote pair list) are carried as the snapshot they would return
this run, `none` meaning the provider is unset. -/
inductive PairFilter
  | staticPairList (whitelist : List String)
  | volumePairList (numberAssets : ℤ) (minValue : ℚ) (sortKey : SortKey)
  | spreadFilter (maxSpread : ℚ)
  | blacklistFilter (blacklist : List String)
  | priceFilter (minPrice maxPrice : ℚ)
  | volatilityFilter (minVol maxVol : ℚ)
  | ageFilter (minDaysListed : ℤ) (marketProvider : Option (List MarketInfo))
  | offsetFilter (offset numberAssets : ℤ)
  | shuffleFilter (seed : ℕ)
  | performanceFilter (minProfit : ℚ) (perfProvider : Option (List (String × ℚ)))
  | producerPairList (remoteProvider : Option (List String)) (producerName : String)
  | marketCapPairList (numberAssets maxRank : ℤ) (marketProvider : Option (List MarketInfo))
deriving DecidableEq

/-- Run-independent implementation details the compiled binary fixes:
the `std::sort` implementation, the seeded `std::shuffle` implementation,
and the current time (hours since epoch) observed by AgeFilter. -/
structure Env where
  sortf : List (String × ℚ) → List (String × ℚ)
  shuffleSeeded : ℕ → List String → List String
  nowHours : ℤ

/-- Contract of the seeded shuffle: a permutation for every seed. -/
def ShuffleSpec (e : Env) : Prop := ∀ s l, (e.shuffleSeeded s l).Perm l

/-- Contract of the `std::random_device`-driven shuffle a zero-seed
ShuffleFilter performs: some permutation, differing from run to run. -/
def RndSpec (rnd : List String → List String) : Prop := ∀ l, (rnd l).Perm l

/-- One `filter(pairs, tickers)` call (dispatch over the catalog).
`rnd` is this run's random shuffle (used only by a zero-seed ShuffleFilter).
`none` marks the configurations on which the source has undefined behaviour
(an OffsetFilter with a negative offset reading out of bounds). -/
def applyFilter (env : Env) (rnd : List String → List String) (tk : Tickers) :
    PairFilter → List String → Option (List String)
  | .staticPairList wl, pairs =>
    some (if wl.isEmpty then pairs else pairs.filter (fun p => wl.contains p))
  | .volumePairList n minv k, pairs =>
    some (volumeFilter env.sortf n minv k tk pairs)
  | .spreadFilter maxSpread, pairs =>
    some (pairs.filter (fun p =>
      match List.lookup p tk with
      | some t => decide (t.getSpreadRat ≤ maxSpread)
      | none => false))
  | .blacklistFilter bl, pairs =>
    some (if bl.isEmpty then pairs else pairs.filter (fun p => ¬ bl.contains p))
  | .priceFilter minP maxP, pairs =>
    some (pairs.filter (fun p =>
      match List.lookup p tk with
      | some t => decide (minP ≤ t.last_price ∧ t.last_price ≤ maxP)
      | none => false))
  | .volatilityFilter minV maxV, pairs =>
    some (pairs.filter (fun p =>
      match List.lookup p tk with
      | some t => decide (minV ≤ t.getVolatility ∧ t.getVolatility ≤ maxV)
      | none => false))
  | .ageFilter minDays mp, pairs =>
    some (match mp with
      | none => pairs
      | some markets => pairs.filter (fun p =>
          match lastLookup markets p with
          | some mk => decide (minDays ≤ daysListed env.nowHours mk)
          | none => false))
  | .offsetFilter k n, pairs => offsetChecked k n pairs
  | .shuffleFilter seed, pairs =>
    some (if seed = 0 then rnd pairs else env.shuffleSeeded seed pairs)
  | .performanceFilter minProfit pp, pairs =>
    some (match pp with
      | none => pairs
      | some perf => pairs.filter (fun p =>
          match List.lookup p perf with
          | some v => decide (minProfit ≤ v)
          | none => true))
  | .producerPairList rp _, _ =>
    some (match rp with
      | none => []
      | some l => l)
  | .marketCapPairList n maxRank mp, pairs =>
    some (match mp with
      | none => pairs
      | some markets => marketCapFilter env.sortf n maxRank markets pairs)

/-- The filter-chain fold of PairListManager::refresh: before each filter
the loop breaks if the working set is empty; otherwise the filter runs and
`filter_count_` is bumped.  Returns the final working set together with the
number of filters actually invoked (`none` propagates undefined behaviour). -/
def runChain (env : Env) (rnd : List String → List String) (tk : Tickers) :
    List PairFilter → List String → Option (List String × ℕ)
  | [], ps => some (ps, 0)
  | f :: fs, ps =>
    if ps.isEmpty then some (ps, 0)
    else
      match applyFilter env rnd tk f ps with
      | none => none
      | some ps' =>
        match runChain env rnd tk fs ps' with
        | none => none
        | some (out, n) => some (out, n + 1)

/-- Manager state (the fields of PairListManager the pipeline mutates). -/
structure MState where
  pairs : List String
  filters : List PairFilter
  refresh_count : ℕ
  filter_count : ℕ
  refresh_interval : ℤ
deriving DecidableEq

/-- What the manager's two providers return this refresh (source: the
`market_provider_` and `ticker_provider_` callbacks; `none` = unset). -/
structure RefreshInput where
  markets : Option (List MarketInfo)
  tickersOpt : Option Tickers

/-- The seeding loop of refresh(): symbols of the active markets, in
provider order (empty when no provider is set). -/
def activeSymbols (inp : RefreshInput) : List String :=
  match inp.markets with
  | none => []
  | some ms => (ms.filter (fun m => m.active)).map (fun m => m.symbol)

/-- The ticker snapshot refresh() passes to every filter (an empty map when
no ticker provider is set). -/
def theTickers (inp : RefreshInput) : Tickers := inp.tickersOpt.getD []

/-- PairListManager::refresh.  If no active pairs are available the function
logs and returns with no state change; otherwise the filter chain is folded
over the active symbols and the result replaces the published list, bumping
the refresh and filter counters.  A chain run with undefined behaviour has
no defined result; the model leaves the state unchanged in that case, and
every theorem touching the chain excludes it via `DefinedChain`. -/
def refresh (env : Env) (rnd : List String → List String) (inp : RefreshInput)
    (st : MState) : MState :=
  let all_pairs := activeSymbols inp
  if all_pairs.isEmpty then st
  else
    match runChain env rnd (theTickers inp) st.filters all_pairs with
    | none => st
    | some (out, n) =>
      { st with
        pairs := out
        filter_count := st.filter_count + n
        refresh_count := st.refresh_count + 1 }

/-- Chains whose every OffsetFilter has a non-negative offset: exactly the
chains on which no filter invocation can read out of bounds. -/
def DefinedChain (fs : List PairFilter) : Prop :=
  ∀ f ∈ fs, ∀ k n, f = .offsetFilter k n → 0 ≤ k

/-- Chains with no zero/auto-seeded ShuffleFilter. -/
def NoZeroSeedShuffle (fs : List PairFilter) : Prop :=
  ∀ f ∈ fs, f ≠ .shuffleFilter 0

/-- Every ProducerPairList in the chain whose remote provider is set reports
a duplicate-free list. -/
def ProducerListsNodup (fs : List PairFilter) : Prop :=
  ∀ f ∈ fs, ∀ l nm, f = .producerPairList (some l) nm → l.Nodup

/-! ### Configuration documents

nlohmann::json values, and the exact subset of its accessors the source
uses: `contains`, `is_array`, `operator[]`, and the throwing `get<T>`
conversions.  `Except Unit` models exception propagation: `get<T>` on a
value of the wrong stored type throws `type_error`, which nothing in
PairFilterFactory::createFromConfig or PairListManager::loadFromConfig
catches. -/

inductive Json
  | null
  | bool (b : Bool)
  | num (q : ℚ)
  | str (s : String)
  | arr (elems : List Json)
  | obj (fields : List (String × Json))

/-- json::contains - false on non-objects. -/
def jContains (j : Json) (key : String) : Bool :=
  match j with
  | .obj fs => (List.lookup key fs).isSome
  | _ => false

/-- json::operator[] on a key known to be present (always guarded by
`contains` in the source). -/
def jGet (j : Json) (key : String) : Json :=
  match j with
  | .obj fs => (List.lookup key fs).getD .null
  | _ => .null

/-- json::is_array. -/
def jIsArr (j : Json) : Bool :=
  match j with
  | .arr _ => true
  | _ => false

/-- json::is_string. -/
def jIsStr (j : Json) : Bool :=
  match j with
  | .str _ => true
  | _ => false

/-- json::is_number. -/
def jIsNum (j : Json) : Bool :=
  match j with
  | .num _ => true
  | _ => false

/-- Elements of an array value. -/
def jElems (j : Json) : List Json :=
  match j with
  | .arr es => es
  | _ => []

/-- C++ numeric conversion to an integer type: truncation toward zero. -/
def truncQ (q : ℚ) : ℤ := q.num.tdiv q.den

/-- get<std::string>: throws type_error unless the stored value is a string. -/
def getStrE : Json → Except Unit String
  | .str s => .ok s
  | _ => .error ()

/-- get<int>: throws type_error unless the stored value is a number. -/
def getIntE : Json → Except Unit ℤ
  | .num q => .ok (truncQ q)
  | _ => .error ()

/-- get<double>: throws type_error unless the stored value is a number. -/
def getNumE : Json → Except Unit ℚ
  | .num q => .ok q
  | _ => .error ()

/-- get<unsigned int>: throws type_error unless the stored value is a
number; integral values convert modulo 2^32. -/
def getUIntE : Json → Except Unit ℕ
  | .num q => .ok (((truncQ q).emod (2 ^ 32)).toNat)
  | _ => .error ()

/-- Element-wise string conversion of an array's elements (the conversion
loop inside nlohmann's from_json for std::vector<std::string>). -/
def strListE : List Json → Except Unit (List String)
  | [] => .ok []
  | e :: es =>
    match getStrE e with
    | .error u => .error u
    | .ok s =>
      match strListE es with
      | .error u => .error u
      | .ok l => .ok (s :: l)

/-- get<std::vector<std::string>>: every element must be a string. -/
def getStrListE (j : Json) : Except Unit (List String) :=
  match j with
  | .arr es => strListE es
  | _ => .error ()

/-- The `if (config.contains(k)) x_ = config[k].get<int>();` idiom. -/
def getIntKeyD (c : Json) (key : String) (d : ℤ) : Except Unit ℤ :=
  if jContains c key then getIntE (jGet c key) else .ok d

/-- Same idiom at type double. -/
def getNumKeyD (c : Json) (key : String) (d : ℚ) : Except Unit ℚ :=
  if jContains c key then getNumE (jGet c key) else .ok d

/-- Same idiom at type unsigned int. -/
def getUIntKeyD (c : Json) (key : String) (d : ℕ) : Except Unit ℕ :=
  if jContains c key then getUIntE (jGet c key) else .ok d

/-- Same idiom at type std::string. -/
def getStrKeyD (c : Json) (key : String) (d : String) : Except Unit String :=
  if jContains c key then getStrE (jGet c key) else .ok d

/-- The `contains && is_array` guarded vector<string> read shared by
StaticPairListFilter::configure and BlacklistFilter::configure. -/
def getStrListKeyD (c : Json) (key : String) : Except Unit (List String) :=
  if jContains c key && jIsArr (jGet c key) then getStrListE (jGet c key)
  else .ok []

/-- VolumePairListFilter::configure's sort_key dispatch (an unrecognized
string leaves the default in place). -/
def parseSortKey (s : String) : SortKey :=
  if s = "quoteVolume" then .QuoteVolume
  else if s = "volume" then .Volume
  else if s = "priceChange" then .PriceChange
  else if s = "volatility" then .Volatility
  else .QuoteVolume

/-- The guarded sort_key read of VolumePairListFilter::configure. -/
def getSortKeyD (c : Json) : Except Unit SortKey :=
  if jContains c "sort_key" then (getStrE (jGet c "sort_key")).map parseSortKey
  else .ok SortKey.QuoteVolume

/-- StaticPairListFilter::configure (defaults: empty whitelist). -/
def configStatic (c : Json) : Except Unit PairFilter :=
  match getStrListKeyD c "whitelist" with
  | .error u => .error u
  | .ok wl => .ok (.staticPairList wl)

/-- VolumePairListFilter::configure (defaults: number_assets 20,
min_value 0, refresh_period 1800 - read but unused by filter() -
sort_key quoteVolume). -/
def configVolume (c : Json) : Except Unit PairFilter :=
  match getIntKeyD c "number_assets" 20 with
  | .error u => .error u
  | .ok n =>
    match getNumKeyD c "min_value" 0 with
    | .error u => .error u
    | .ok mv =>
      match getIntKeyD c "refresh_period" 1800 with
      | .error u => .error u
      | .ok _ =>
        match getSortKeyD c with
        | .error u => .error u
        | .ok k => .ok (.volumePairList n mv k)

/-- SpreadFilter::configure (default max_spread_ratio 0.005). -/
def configSpread (c : Json) : Except Unit PairFilter :=
  match getNumKeyD c "max_spread_ratio" (5 / 1000) with
  | .error u => .error u
  | .ok r => .ok (.spreadFilter r)

/-- BlacklistFilter::configure (defaults: empty blacklist). -/
def configBlacklist (c : Json) : Except Unit PairFilter :=
  match getStrListKeyD c "blacklist" with
  | .error u => .error u
  | .ok bl => .ok (.blacklistFilter bl)

/-- The largest finite double, `std::numeric_limits<double>::max()`. -/
def doubleMax : ℚ := 2 ^ 1024 - 2 ^ 971

/-- PriceFilter::configure (defaults: min 0, max DBL_MAX). -/
def configPrice (c : Json) : Except Unit PairFilter :=
  match getNumKeyD c "min_price" 0 with
  | .error u => .error u
  | .ok lo =>
    match getNumKeyD c "max_price" doubleMax with
    | .error u => .error u
    | .ok hi => .ok (.priceFilter lo hi)

/-- VolatilityFilter::configure (defaults: min 0, max DBL_MAX). -/
def configVolatility (c : Json) : Except Unit PairFilter :=
  match getNumKeyD c "min_volatility" 0 with
  | .error u => .error u
  | .ok lo =>
    match getNumKeyD c "max_volatility" doubleMax with
    | .error u => .error u
    | .ok hi => .ok (.volatilityFilter lo hi)

/-- AgeFilter::configure (default min_days_listed 10; no provider yet). -/
def configAge (c : Json) : Except Unit PairFilter :=
  match getIntKeyD c "min_days_listed" 10 with
  | .error u => .error u
  | .ok d => .ok (.ageFilter d none)

/-- OffsetFilter::configure (defaults: offset 0, number_assets 0). -/
def configOffset (c : Json) : Except Unit PairFilter :=
  match getIntKeyD c "offset" 0 with
  | .error u => .error u
  | .ok k =>
    match getIntKeyD c "number_assets" 0 with
    | .error u => .error u
    | .ok n => .ok (.offsetFilter k n)

/-- ShuffleFilter::configure (default seed 0 = system random). -/
def configShuffle (c : Json) : Except Unit PairFilter :=
  match getUIntKeyD c "seed" 0 with
  | .error u => .error u
  | .ok s => .ok (.shuffleFilter s)

/-- PerformanceFilter::configure (default min_profit 0; no provider yet). -/
def configPerformance (c : Json) : Except Unit PairFilter :=
  match getNumKeyD c "min_profit" 0 with
  | .error u => .error u
  | .ok mp => .ok (.performanceFilter mp none)

/-- ProducerPairList::configure (default producer_name empty;
no provider yet). -/
def configProducer (c : Json) : Except Unit PairFilter :=
  match getStrKeyD c "producer_name" "" with
  | .error u => .error u
  | .ok nm => .ok (.producerPairList none nm)

/-- MarketCapPairList::configure (defaults: number_assets 20, max_rank 100;
no provider yet). -/
def configMarketCap (c : Json) : Except Unit PairFilter :=
  match getIntKeyD c "number_assets" 20 with
  | .error u => .error u
  | .ok n =>
    match getIntKeyD c "max_rank" 100 with
    | .error u => .error u
    | .ok r => .ok (.marketCapPairList n r none)

/-- PairFilterFactory::create composed with the configure call of
PairFilterFactory::createFromConfig: dispatch on the method name, then run
the filter's configure on the same entry.  An unknown method name logs and
yields nullptr (`none`). -/
def createByName (m : String) (c : Json) : Except Unit (Option PairFilter) :=
  if m = "StaticPairList" then (configStatic c).map some
  else if m = "VolumePairList" then (configVolume c).map some
  else if m = "SpreadFilter" then (configSpread c).map some
  else if m = "BlacklistFilter" then (configBlacklist c).map some
  else if m = "PriceFilter" then (configPrice c).map some
  else if m = "VolatilityFilter" then (configVolatility c).map some
  else if m = "AgeFilter" then (configAge c).map some
  else if m = "OffsetFilter" then (configOffset c).map some
  else if m = "ShuffleFilter" then (configShuffle c).map some
  else if m = "PerformanceFilter" then (configPerformance c).map some
  else if m = "ProducerPairList" then (configProducer c).map some
  else if m = "MarketCapPairList" then (configMarketCap c).map some
  else .ok none

/-- PairFilterFactory::createFromConfig: a missing method field logs and
yields nullptr (`.ok none`, the entry is skipped); a method field that is
not a string makes `get<std::string>` throw (`.error`). -/
def createFromConfigE (c : Json) : Except Unit (Option PairFilter) :=
  if ¬ jContains c "method" then .ok none
  else
    match getStrE (jGet c "method") with
    | .error u => .error u
    | .ok m => createByName m c

/-- The entries loadFromConfig iterates: the `pairlist_filters` array when
present and an array, nothing otherwise. -/
def filterEntries (cfg : Json) : List Json :=
  if jContains cfg "pairlist_filters" && jIsArr (jGet cfg "pairlist_filters") then
    jElems (jGet cfg "pairlist_filters")
  else []

/-- The filter a single entry contributes: `none` both when the factory
skips it and when parsing it would throw (used only to describe the output
of a successful load). -/
def parsedFilter (e : Json) : Option PairFilter :=
  match createFromConfigE e with
  | .ok r => r
  | .error _ => none

/-- The loop of PairListManager::loadFromConfig: append each successfully
created filter, skip nullptr results, propagate exceptions. -/
def loadFiltersE : List Json → List PairFilter → Except Unit (List PairFilter)
  | [], acc => .ok acc
  | e :: es, acc =>
    match createFromConfigE e with
    | .error u => .error u
    | .ok none => loadFiltersE es acc
    | .ok (some f) => loadFiltersE es (acc ++ [f])

/-- PairListManager::loadFromConfig: clear the chain, load the declared
filters in order, then read the optional refresh_period override.  An
`.error` result is an escaped nlohmann type_error. -/
def loadFromConfigE (cfg : Json) (st : MState) : Except Unit MState :=
  match loadFiltersE (filterEntries cfg) [] with
  | .error u => .error u
  | .ok fs =>
    match getIntKeyD cfg "refresh_period" st.refresh_interval with
    | .error u => .error u
    | .ok ri => .ok { st with filters := fs, refresh_interval := ri }

/-! Well-typedness of a configuration: the structural condition under which
no `get<T>` in the load path throws. -/

/-- Key absent, or present with a numeric value. -/
def keyOkNum (c : Json) (key : String) : Bool :=
  !jContains c key || jIsNum (jGet c key)

/-- Key absent, or present with a string value. -/
def keyOkStr (c : Json) (key : String) : Bool :=
  !jContains c key || jIsStr (jGet c key)

/-- Key absent, not an array, or an array all of whose elements are
strings (the guarded vector<string> reads). -/
def keyOkStrArr (c : Json) (key : String) : Bool :=
  !(jContains c key && jIsArr (jGet c key)) || (jElems (jGet c key)).all jIsStr

/-- The option fields a given method's configure call reads are all
well-typed (unknown methods read nothing). -/
def entryOkName (m : String) (e : Json) : Bool :=
  if m = "StaticPairList" then keyOkStrArr e "whitelist"
  else if m = "VolumePairList" then
    keyOkNum e "number_assets" && keyOkNum e "min_value" &&
    keyOkNum e "refresh_period" && keyOkStr e "sort_key"
  else if m = "SpreadFilter" then keyOkNum e "max_spread_ratio"
  else if m = "BlacklistFilter" then keyOkStrArr e "blacklist"
  else if m = "PriceFilter" then keyOkNum e "min_price" && keyOkNum e "max_price"
  else if m = "VolatilityFilter" then
    keyOkNum e "min_volatility" && keyOkNum e "max_volatility"
  else if m = "AgeFilter" then keyOkNum e "min_days_listed"
  else if m = "OffsetFilter" then keyOkNum e "offset" && keyOkNum e "number_assets"
  else if m = "ShuffleFilter" then keyOkNum e "seed"
  else if m = "PerformanceFilter" then keyOkNum e "min_profit"
  else if m = "ProducerPairList" then keyOkStr e "producer_name"
  else if m = "MarketCapPairList" then keyOkNum e "number_assets" && keyOkNum e "max_rank"
  else true

/-- A filter entry that the load path processes without throwing:
no method field, or a string method that is either unknown or whose
filter-specific option fields are all well-typed. -/
def entryOk (e : Json) : Bool :=
  !jContains e "method" ||
    match jGet e "method" with
    | .str m => entryOkName m e
    | _ => false

/-- A whole configuration document the load path processes without
throwing. -/
def cfgOk (cfg : Json) : Bool :=
  (filterEntries cfg).all entryOk && keyOkNum cfg "refresh_period"

/-! ### Generic facts about the ranking-filter shape -/

/-- The common shape of the two ranking filters: select, sort, take top n,
project the symbols. -/
def rankFilter (sortf : List (String × ℚ) → List (String × ℚ)) (n : ℤ)
    (g : String → Option ℚ) (pairs : List String) : List String :=
  (takeTopN n (sortf (selectWith g pairs))).map Prod.fst

theorem volumeFilter_eq_rankFilter (sortf) (n : ℤ) (minv : ℚ) (k : SortKey)
    (tk : Tickers) (pairs : List String) :
    volumeFilter sortf n minv k tk pairs = rankFilter sortf n (volumeSel k minv tk) pairs := rfl

theorem marketCapFilter_eq_rankFilter (sortf) (n maxRank : ℤ)
    (markets : List MarketInfo) (pairs : List String) :
    marketCapFilter sortf n maxRank markets pairs
      = rankFilter sortf n (marketCapSel maxRank markets) pairs := rfl

theorem selectWith_mem {g : String → Option ℚ} {pairs : List String}
    {p : String} {v : ℚ} (h : (p, v) ∈ selectWith g pairs) :
    p ∈ pairs ∧ g p = some v := by
  rcases List.mem_filterMap.mp h with ⟨a, ha, hmap⟩
  rcases Option.map_eq_some'.mp hmap with ⟨v', hv', heq⟩
  injection heq with h1 h2
  subst h1; subst h2
  exact ⟨ha, hv'⟩

theorem selectWith_fst_sublist (g : String → Option ℚ) (pairs : List String) :
    ((selectWith g pairs).map Prod.fst).Sublist pairs := by
  induction pairs with
  | nil => simp [selectWith]
  | cons p ps ih =>
    simp only [selectWith, List.filterMap_cons] at *
    cases hg : g p with
    | none => simpa [hg] using ih.cons p
    | some v => simpa [hg] using ih.cons₂ p

theorem rankFilter_mem {sortf} (hs : SortSpec sortf) (n : ℤ)
    (g : String → Option ℚ) (pairs : List String) :
    ∀ p ∈ rankFilter sortf n g pairs, ∃ v, g p = some v ∧ p ∈ pairs := by
  intro p hp
  rcases List.mem_map.mp hp with ⟨⟨p', v⟩, hpr, rfl⟩
  have h1 : (p', v) ∈ sortf (selectWith g pairs) := List.mem_of_mem_take hpr
  have h2 : (p', v) ∈ selectWith g pairs := ((hs _).1.mem_iff).mp h1
  obtain ⟨hmem, hg⟩ := selectWith_mem h2
  exact ⟨v, hg, hmem⟩

theorem rankFilter_sorted {sortf} (hs : SortSpec sortf) (n : ℤ)
    (g : String → Option ℚ) (pairs : List String) :
    (rankFilter sortf n g pairs).Pairwise
      (fun a b => ∀ va vb, g a = some va → g b = some vb → vb ≤ va) := by
  have hsorted : (sortf (selectWith g pairs)).Sorted ge2 := (hs _).2
  have htake : (takeTopN n (sortf (selectWith g pairs))).Pairwise ge2 := hsorted.take
  have hval : ∀ x ∈ takeTopN n (sortf (selectWith g pairs)), g x.1 = some x.2 := by
    intro x hx
    have hx2 : x ∈ selectWith g pairs :=
      ((hs _).1.mem_iff).mp (List.mem_of_mem_take hx)
    obtain ⟨p, v⟩ := x
    exact (selectWith_mem hx2).2
  refine List.pairwise_map.mpr (htake.imp_of_mem ?_)
  intro a b ha hb hr va vb hga hgb
  have hva : va = a.2 := by
    have := hval a ha; rw [hga] at this; exact Option.some_inj.mp this
  have hvb : vb = b.2 := by
    have := hval b hb; rw [hgb] at this; exact Option.some_inj.mp this
  rw [hva, hvb]
  exact hr

theorem rankFilter_length {sortf} (n : ℤ) (g : String → Option ℚ)
    (pairs : List String) (hn : 0 ≤ n) :
    ((rankFilter sortf n g pairs).length : ℤ) ≤ n := by
  simp only [rankFilter, takeTopN, List.length_map, List.length_take]
  omega

theorem rankFilter_nodup {sortf} (hs : SortSpec sortf) (n : ℤ)
    (g : String → Option ℚ) (pairs : List String) (h : pairs.Nodup) :
    (rankFilter sortf n g pairs).Nodup := by
  have h1 : ((selectWith g pairs).map Prod.fst).Nodup :=
    (selectWith_fst_sublist g pairs).nodup h
  have hp : ((sortf (selectWith g pairs)).map Prod.fst).Perm
      ((selectWith g pairs).map Prod.fst) := ((hs _).1).map _
  have h2 : ((sortf (selectWith g pairs)).map Prod.fst).Nodup :=
    (hp.nodup_iff).mpr h1
  have h3 : rankFilter sortf n g pairs
      = ((sortf (selectWith g pairs)).map Prod.fst).take
          ((min n ((sortf (selectWith g pairs)).length : ℤ)).toNat) := by
    simp [rankFilter, takeTopN, List.map_take]
  rw [h3]
  exact (List.take_sublist _ _).nodup h2

/-- A list sorted by non-increasing metric with pairwise-distinct metric
values is the unique such permutation: any permutation of it that is also
sorted is equal to it. -/
theorem sorted_perm_eq_of_distinct {l t : List (String × ℚ)}
    (hp : l.Perm t) (hsl : l.Sorted ge2) (hst : t.Sorted ge2)
    (hd : t.Pairwise (fun a b => a.2 ≠ b.2)) : l = t := by
  have hdl : l.Pairwise (fun a b : String × ℚ => a.2 ≠ b.2) :=
    (hp.pairwise_iff (fun h => Ne.symm h)).mpr hd
  let r : String × ℚ → String × ℚ → Prop := fun a b => b.2 < a.2
  haveI : IsAntisymm (String × ℚ) (fun a b => b.2 < a.2) :=
    ⟨fun a b h1 h2 => absurd (lt_trans h1 h2) (lt_irrefl _)⟩
  have hsl' : l.Sorted (fun a b : String × ℚ => b.2 < a.2) :=
    (hsl.and hdl).imp (fun h => lt_of_le_of_ne h.1 (Ne.symm h.2))
  have hst' : t.Sorted (fun a b : String × ℚ => b.2 < a.2) :=
    (hst.and hd).imp (fun h => lt_of_le_of_ne h.1 (Ne.symm h.2))
  exact List.eq_of_perm_of_sorted hp hsl' hst'

/-! ### Facts about OffsetFilter -/

theorem take_min_self {α : Type} (l : List α) (m : ℕ) :
    l.take m = l.take (min m l.length) := by
  rcases le_total m l.length with h | h
  · rw [min_eq_left h]
  · rw [min_eq_right h, List.take_of_length_le h, List.take_length]

theorem take_eq_take_of_min {α : Type} {l : List α} {m n : ℕ}
    (h : min m l.length = min n l.length) : l.take m = l.take n := by
  rw [take_min_self l m, take_min_self l n, h]

/-- On a non-negative offset the source loop is in bounds and implements
drop-then-take (dropping `K`, keeping `N` when positive, the rest when
`N ≤ 0`). -/
theorem offsetChecked_of_nonneg {K : ℤ} (hK : 0 ≤ K) (N : ℤ) (ps : List String) :
    offsetChecked K N ps
      = some (if 0 < N then (ps.drop K.toNat).take N.toNat else ps.drop K.toNat) := by
  unfold offsetChecked
  have hsize : (0 : ℤ) ≤ (ps.length : ℤ) := Int.ofNat_nonneg _
  have hstart : 0 ≤ min K (ps.length : ℤ) := le_min hK hsize
  rw [if_neg (by omega : ¬ (min K (ps.length : ℤ) < 0 ∧ _))]
  have hdrop : ps.drop (min K (ps.length : ℤ)).toNat = ps.drop K.toNat := by
    rcases le_or_lt K (ps.length : ℤ) with h | h
    · rw [min_eq_left h]
    · rw [min_eq_right h.le]
      rw [List.drop_eq_nil_iff.mpr (by omega), List.drop_eq_nil_iff.mpr (by omega)]
  rcases lt_or_le 0 N with hN | hN
  · rw [if_pos hN, if_pos hN, hdrop]
    congr 1
    apply take_eq_take_of_min
    simp only [List.length_drop]
    omega
  · rw [if_neg (by omega), if_neg (by omega), hdrop]
    congr 1
    rw [List.take_of_length_le]
    simp only [List.length_drop]
    omega

theorem offsetChecked_isSome_of_nonneg {K : ℤ} (hK : 0 ≤ K) (N : ℤ)
    (ps : List String) : (offsetChecked K N ps).isSome := by
  rw [offsetChecked_of_nonneg hK]
  rfl

theorem offsetChecked_sublist {K N : ℤ} {ps out : List String}
    (h : offsetChecked K N ps = some out) : out.Sublist ps := by
  simp only [offsetChecked] at h
  split at h <;> split at h
  · cases h
  · injection h with h1
    subst h1
    exact ((List.take_sublist _ _).trans (List.drop_sublist _ _))
  · cases h
  · injection h with h1
    subst h1
    exact ((List.take_sublist _ _).trans (List.drop_sublist _ _))

/-! ### Facts about single filter invocations and the chain fold -/

theorem applyFilter_nodup {env : Env} {rnd : List String → List String}
    {tk : Tickers} (hsort : SortSpec env.sortf) (hsh : ShuffleSpec env)
    (hrnd : RndSpec rnd) {f : PairFilter}
    (hf : ∀ l nm, f = .producerPairList (some l) nm → l.Nodup)
    {ps out : List String} (hps : ps.Nodup)
    (h : applyFilter env rnd tk f ps = some out) : out.Nodup := by
  cases f with
  | staticPairList wl =>
    injection h with h1
    subst h1
    split
    · exact hps
    · exact hps.filter _
  | volumePairList n mv k =>
    injection h with h1
    subst h1
    rw [volumeFilter_eq_rankFilter]
    exact rankFilter_nodup hsort _ _ _ hps
  | spreadFilter ms =>
    injection h with h1
    subst h1
    exact hps.filter _
  | blacklistFilter bl =>
    injection h with h1
    subst h1
    split
    · exact hps
    · exact hps.filter _
  | priceFilter lo hi =>
    injection h with h1
    subst h1
    exact hps.filter _
  | volatilityFilter lo hi =>
    injection h with h1
    subst h1
    exact hps.filter _
  | ageFilter d mp =>
    injection h with h1
    subst h1
    cases mp with
    | none => exact hps
    | some ms => exact hps.filter _
  | offsetFilter k n =>
    exact (offsetChecked_sublist h).nodup hps
  | shuffleFilter s =>
    injection h with h1
    subst h1
    split
    · exact ((hrnd ps).nodup_iff).mpr hps
    · exact ((hsh s ps).nodup_iff).mpr hps
  | performanceFilter mp pp =>
    injection h with h1
    subst h1
    cases pp with
    | none => exact hps
    | some perf => exact hps.filter _
  | producerPairList rp nm =>
    injection h with h1
    subst h1
    cases rp with
    | none => exact List.nodup_nil
    | some l => exact hf l nm rfl
  | marketCapPairList n r mp =>
    injection h with h1
    subst h1
    cases mp with
    | none => exact hps
    | some ms =>
      exact rankFilter_nodup hsort n (marketCapSel r ms) ps hps

theorem applyFilter_isSome {env : Env} {rnd : List String → List String}
    {tk : Tickers} {f : PairFilter}
    (hf : ∀ k n, f = .offsetFilter k n → 0 ≤ k) (ps : List String) :
    (applyFilter env rnd tk f ps).isSome := by
  cases f
  case offsetFilter k n => exact offsetChecked_isSome_of_nonneg (hf k n rfl) n ps
  all_goals rfl

theorem runChain_isSome {env : Env} {rnd : List String → List String}
    {tk : Tickers} :
    ∀ (fs : List PairFilter), DefinedChain fs →
      ∀ ps, (runChain env rnd tk fs ps).isSome
  | [], _, _ => rfl
  | f :: fs, hd, ps => by
    simp only [runChain]
    split
    · rfl
    · have h1 : (applyFilter env rnd tk f ps).isSome :=
        applyFilter_isSome (fun k n he => hd f (List.mem_cons_self f fs) k n he) ps
      obtain ⟨ps', hps'⟩ := Option.isSome_iff_exists.mp h1
      have h2 := @runChain_isSome env rnd tk fs (fun g hg => hd g (List.mem_cons_of_mem f hg)) ps'
      obtain ⟨⟨out, n⟩, hout⟩ := Option.isSome_iff_exists.mp h2
      simp only [hps', hout]
      rfl

theorem runChain_rnd_indep {env : Env} {tk : Tickers}
    {rnd1 rnd2 : List String → List String} :
    ∀ (fs : List PairFilter), NoZeroSeedShuffle fs →
      ∀ ps, runChain env rnd1 tk fs ps = runChain env rnd2 tk fs ps
  | [], _, _ => rfl
  | f :: fs, hz, ps => by
    simp only [runChain]
    split
    · rfl
    · have hap : applyFilter env rnd1 tk f ps = applyFilter env rnd2 tk f ps := by
        cases f
        case shuffleFilter s =>
          have hns : ¬ s = 0 := by
            intro h0
            exact hz _ (List.mem_cons_self _ _) (by rw [h0])
          simp [applyFilter, hns]
        all_goals rfl
      rw [hap]
      cases hres : applyFilter env rnd2 tk f ps with
      | none => rfl
      | some ps' =>
        dsimp only
        rw [@runChain_rnd_indep env tk rnd1 rnd2 fs (fun g hg => hz g (List.mem_cons_of_mem f hg)) ps']

theorem runChain_nodup {env : Env} {rnd : List String → List String}
    {tk : Tickers} (hsort : SortSpec env.sortf) (hsh : ShuffleSpec env)
    (hrnd : RndSpec rnd) :
    ∀ (fs : List PairFilter), ProducerListsNodup fs →
      ∀ ps out n, ps.Nodup → runChain env rnd tk fs ps = some (out, n) →
        out.Nodup
  | [], _, ps, out, n, hps, h => by
    simp only [runChain] at h
    injection h with h1
    injection h1 with ha hb
    subst ha
    exact hps
  | f :: fs, hpn, ps, out, n, hps, h => by
    simp only [runChain] at h
    split at h
    · injection h with h1
      injection h1 with ha hb
      subst ha
      exact hps
    · cases hap : applyFilter env rnd tk f ps with
      | none => rw [hap] at h; cases h
      | some ps' =>
        rw [hap] at h
        dsimp only at h
        have hps' : ps'.Nodup :=
          applyFilter_nodup hsort hsh hrnd
            (fun l nm he => hpn f (List.mem_cons_self f fs) l nm he) hps hap
        cases hrc : runChain env rnd tk fs ps' with
        | none => rw [hrc] at h; cases h
        | some pr =>
          obtain ⟨out', n'⟩ := pr
          rw [hrc] at h
          injection h with h1
          injection h1 with ha hb
          subst ha
          exact @runChain_nodup env rnd tk hsort hsh hrnd fs
            (fun g hg => hpn g (List.mem_cons_of_mem f hg)) ps' out' n' hps' hrc

/-! ### Facts about refresh -/

theorem refresh_of_noActive {env : Env} {rnd : List String → List String}
    {inp : RefreshInput} {st : MState} (h : activeSymbols inp = []) :
    refresh env rnd inp st = st := by
  simp [refresh, h]

theorem refresh_filters (env : Env) (rnd : List String → List String)
    (inp : RefreshInput) (st : MState) :
    (refresh env rnd inp st).filters = st.filters := by
  simp only [refresh]
  split
  · rfl
  · split <;> rfl

/-! ### Facts about the configuration load path -/

theorem getIntKeyD_ok {c : Json} {key : String} (h : keyOkNum c key = true)
    (d : ℤ) : ∃ z, getIntKeyD c key d = .ok z := by
  unfold getIntKeyD
  by_cases hc : jContains c key = true
  · rw [if_pos hc]
    have hnum : jIsNum (jGet c key) = true := by
      unfold keyOkNum at h
      rw [hc] at h
      simpa using h
    cases hj : jGet c key <;> rw [hj] at hnum <;> simp [jIsNum] at hnum
    rename_i q
    exact ⟨truncQ q, rfl⟩
  · rw [if_neg hc]
    exact ⟨d, rfl⟩

theorem getNumKeyD_ok {c : Json} {key : String} (h : keyOkNum c key = true)
    (d : ℚ) : ∃ z, getNumKeyD c key d = .ok z := by
  unfold getNumKeyD
  by_cases hc : jContains c key = true
  · rw [if_pos hc]
    have hnum : jIsNum (jGet c key) = true := by
      unfold keyOkNum at h
      rw [hc] at h
      simpa using h
    cases hj : jGet c key <;> rw [hj] at hnum <;> simp [jIsNum] at hnum
    rename_i q
    exact ⟨q, rfl⟩
  · rw [if_neg hc]
    exact ⟨d, rfl⟩

theorem getUIntKeyD_ok {c : Json} {key : String} (h : keyOkNum c key = true)
    (d : ℕ) : ∃ z, getUIntKeyD c key d = .ok z := by
  unfold getUIntKeyD
  by_cases hc : jContains c key = true
  · rw [if_pos hc]
    have hnum : jIsNum (jGet c key) = true := by
      unfold keyOkNum at h
      rw [hc] at h
      simpa using h
    cases hj : jGet c key <;> rw [hj] at hnum <;> simp [jIsNum] at hnum
    rename_i q
    exact ⟨_, rfl⟩
  · rw [if_neg hc]
    exact ⟨d, rfl⟩

theorem getStrKeyD_ok {c : Json} {key : String} (h : keyOkStr c key = true)
    (d : String) : ∃ z, getStrKeyD c key d = .ok z := by
  unfold getStrKeyD
  by_cases hc : jContains c key = true
  · rw [if_pos hc]
    have hstr : jIsStr (jGet c key) = true := by
      unfold keyOkStr at h
      rw [hc] at h
      simpa using h
    cases hj : jGet c key <;> rw [hj] at hstr <;> simp [jIsStr] at hstr
    rename_i s
    exact ⟨s, rfl⟩
  · rw [if_neg hc]
    exact ⟨d, rfl⟩

theorem getSortKeyD_ok {c : Json} (h : keyOkStr c "sort_key" = true) :
    ∃ k, getSortKeyD c = .ok k := by
  unfold getSortKeyD
  by_cases hc : jContains c "sort_key" = true
  · rw [if_pos hc]
    have hstr : jIsStr (jGet c "sort_key") = true := by
      unfold keyOkStr at h
      rw [hc] at h
      simpa using h
    cases hj : jGet c "sort_key" <;> rw [hj] at hstr <;> simp [jIsStr] at hstr
    rename_i s
    exact ⟨parseSortKey s, rfl⟩
  · rw [if_neg hc]
    exact ⟨SortKey.QuoteVolume, rfl⟩

theorem strListE_ok {es : List Json} (h : es.all jIsStr = true) :
    ∃ l, strListE es = .ok l := by
  induction es with
  | nil => exact ⟨[], rfl⟩
  | cons e es ih =>
    simp only [List.all_cons, Bool.and_eq_true] at h
    obtain ⟨he, hes⟩ := h
    obtain ⟨l, hl⟩ := ih hes
    cases e <;> simp [jIsStr] at he
    case str s =>
      refine ⟨s :: l, ?_⟩
      simp only [strListE, getStrE, hl]

theorem getStrListKeyD_ok {c : Json} {key : String}
    (h : keyOkStrArr c key = true) : ∃ l, getStrListKeyD c key = .ok l := by
  unfold getStrListKeyD
  by_cases hc : (jContains c key && jIsArr (jGet c key)) = true
  · rw [if_pos hc]
    have hall : (jElems (jGet c key)).all jIsStr = true := by
      unfold keyOkStrArr at h
      rw [hc] at h
      simpa using h
    have harr : jIsArr (jGet c key) = true := by
      have hc2 := hc
      simp only [Bool.and_eq_true] at hc2
      exact hc2.2
    cases hj : jGet c key <;> rw [hj] at harr <;> simp [jIsArr] at harr
    rename_i es
    rw [hj] at hall
    simp only [jElems] at hall
    simpa [getStrListE] using strListE_ok hall
  · rw [if_neg hc]
    exact ⟨[], rfl⟩

theorem configStatic_ok {c : Json} (h : keyOkStrArr c "whitelist" = true) :
    ∃ f, configStatic c = .ok f := by
  obtain ⟨wl, hwl⟩ := getStrListKeyD_ok h
  exact ⟨.staticPairList wl, by unfold configStatic; rw [hwl]⟩

theorem configVolume_ok {c : Json} (h1 : keyOkNum c "number_assets" = true)
    (h2 : keyOkNum c "min_value" = true) (h3 : keyOkNum c "refresh_period" = true)
    (h4 : keyOkStr c "sort_key" = true) : ∃ f, configVolume c = .ok f := by
  obtain ⟨n, hn⟩ := getIntKeyD_ok h1 20
  obtain ⟨mv, hmv⟩ := getNumKeyD_ok h2 0
  obtain ⟨rp, hrp⟩ := getIntKeyD_ok h3 1800
  obtain ⟨k, hk⟩ := getSortKeyD_ok h4
  exact ⟨.volumePairList n mv k, by unfold configVolume; rw [hn, hmv, hrp, hk]⟩

theorem configSpread_ok {c : Json} (h : keyOkNum c "max_spread_ratio" = true) :
    ∃ f, configSpread c = .ok f := by
  obtain ⟨r, hr⟩ := getNumKeyD_ok h (5 / 1000)
  exact ⟨.spreadFilter r, by unfold configSpread; rw [hr]⟩

theorem configBlacklist_ok {c : Json} (h : keyOkStrArr c "blacklist" = true) :
    ∃ f, configBlacklist c = .ok f := by
  obtain ⟨bl, hbl⟩ := getStrListKeyD_ok h
  exact ⟨.blacklistFilter bl, by unfold configBlacklist; rw [hbl]⟩

theorem configPrice_ok {c : Json} (h1 : keyOkNum c "min_price" = true)
    (h2 : keyOkNum c "max_price" = true) : ∃ f, configPrice c = .ok f := by
  obtain ⟨lo, hlo⟩ := getNumKeyD_ok h1 0
  obtain ⟨hi, hhi⟩ := getNumKeyD_ok h2 doubleMax
  exact ⟨.priceFilter lo hi, by unfold configPrice; rw [hlo, hhi]⟩

theorem configVolatility_ok {c : Json} (h1 : keyOkNum c "min_volatility" = true)
    (h2 : keyOkNum c "max_volatility" = true) : ∃ f, configVolatility c = .ok f := by
  obtain ⟨lo, hlo⟩ := getNumKeyD_ok h1 0
  obtain ⟨hi, hhi⟩ := getNumKeyD_ok h2 doubleMax
  exact ⟨.volatilityFilter lo hi, by unfold configVolatility; rw [hlo, hhi]⟩

theorem configAge_ok {c : Json} (h : keyOkNum c "min_days_listed" = true) :
    ∃ f, configAge c = .ok f := by
  obtain ⟨d, hd⟩ := getIntKeyD_ok h 10
  exact ⟨.ageFilter d none, by unfold configAge; rw [hd]⟩

theorem configOffset_ok {c : Json} (h1 : keyOkNum c "offset" = true)
    (h2 : keyOkNum c "number_assets" = true) : ∃ f, configOffset c = .ok f := by
  obtain ⟨k, hk⟩ := getIntKeyD_ok h1 0
  obtain ⟨n, hn⟩ := getIntKeyD_ok h2 0
  exact ⟨.offsetFilter k n, by unfold configOffset; rw [hk, hn]⟩

theorem configShuffle_ok {c : Json} (h : keyOkNum c "seed" = true) :
    ∃ f, configShuffle c = .ok f := by
  obtain ⟨s, hs⟩ := getUIntKeyD_ok h 0
  exact ⟨.shuffleFilter s, by unfold configShuffle; rw [hs]⟩

theorem configPerformance_ok {c : Json} (h : keyOkNum c "min_profit" = true) :
    ∃ f, configPerformance c = .ok f := by
  obtain ⟨mp, hmp⟩ := getNumKeyD_ok h 0
  exact ⟨.performanceFilter mp none, by unfold configPerformance; rw [hmp]⟩

theorem configProducer_ok {c : Json} (h : keyOkStr c "producer_name" = true) :
    ∃ f, configProducer c = .ok f := by
  obtain ⟨nm, hnm⟩ := getStrKeyD_ok h ""
  exact ⟨.producerPairList none nm, by unfold configProducer; rw [hnm]⟩

theorem configMarketCap_ok {c : Json} (h1 : keyOkNum c "number_assets" = true)
    (h2 : keyOkNum c "max_rank" = true) : ∃ f, configMarketCap c = .ok f := by
  obtain ⟨n, hn⟩ := getIntKeyD_ok h1 20
  obtain ⟨r, hr⟩ := getIntKeyD_ok h2 100
  exact ⟨.marketCapPairList n r none, by unfold configMarketCap; rw [hn, hr]⟩

theorem createByName_ok {m : String} {e : Json} (h : entryOkName m e = true) :
    ∃ r, createByName m e = .ok r := by
  unfold entryOkName at h
  unfold createByName
  by_cases c1 : m = "StaticPairList"
  · rw [if_pos c1] at h ⊢
    obtain ⟨f, hf⟩ := configStatic_ok h
    exact ⟨some f, by rw [hf]; rfl⟩
  rw [if_neg c1] at h ⊢
  by_cases c2 : m = "VolumePairList"
  · rw [if_pos c2] at h ⊢
    simp only [Bool.and_eq_true] at h
    obtain ⟨⟨⟨h1, h2⟩, h3⟩, h4⟩ := h
    obtain ⟨f, hf⟩ := configVolume_ok h1 h2 h3 h4
    exact ⟨some f, by rw [hf]; rfl⟩
  rw [if_neg c2] at h ⊢
  by_cases c3 : m = "SpreadFilter"
  · rw [if_pos c3] at h ⊢
    obtain ⟨f, hf⟩ := configSpread_ok h
    exact ⟨some f, by rw [hf]; rfl⟩
  rw [if_neg c3] at h ⊢
  by_cases c4 : m = "BlacklistFilter"
  · rw [if_pos c4] at h ⊢
    obtain ⟨f, hf⟩ := configBlacklist_ok h
    exact ⟨some f, by rw [hf]; rfl⟩
  rw [if_neg c4] at h ⊢
  by_cases c5 : m = "PriceFilter"
  · rw [if_pos c5] at h ⊢
    simp only [Bool.and_eq_true] at h
    obtain ⟨f, hf⟩ := configPrice_ok h.1 h.2
    exact ⟨some f, by rw [hf]; rfl⟩
  rw [if_neg c5] at h ⊢
  by_cases c6 : m = "VolatilityFilter"
  · rw [if_pos c6] at h ⊢
    simp only [Bool.and_eq_true] at h
    obtain ⟨f, hf⟩ := configVolatility_ok h.1 h.2
    exact ⟨some f, by rw [hf]; rfl⟩
  rw [if_neg c6] at h ⊢
  by_cases c7 : m = "AgeFilter"
  · rw [if_pos c7] at h ⊢
    obtain ⟨f, hf⟩ := configAge_ok h
    exact ⟨some f, by rw [hf]; rfl⟩
  rw [if_neg c7] at h ⊢
  by_cases c8 : m = "OffsetFilter"
  · rw [if_pos c8] at h ⊢
    simp only [Bool.and_eq_true] at h
    obtain ⟨f, hf⟩ := configOffset_ok h.1 h.2
    exact ⟨some f, by rw [hf]; rfl⟩
  rw [if_neg c8] at h ⊢
  by_cases c9 : m = "ShuffleFilter"
  · rw [if_pos c9] at h ⊢
    obtain ⟨f, hf⟩ := configShuffle_ok h
    exact ⟨some f, by rw [hf]; rfl⟩
  rw [if_neg c9] at h ⊢
  by_cases c10 : m = "PerformanceFilter"
  · rw [if_pos c10] at h ⊢
    obtain ⟨f, hf⟩ := configPerformance_ok h
    exact ⟨some f, by rw [hf]; rfl⟩
  rw [if_neg c10] at h ⊢
  by_cases c11 : m = "ProducerPairList"
  · rw [if_pos c11] at h ⊢
    obtain ⟨f, hf⟩ := configProducer_ok h
    exact ⟨some f, by rw [hf]; rfl⟩
  rw [if_neg c11] at h ⊢
  by_cases c12 : m = "MarketCapPairList"
  · rw [if_pos c12] at h ⊢
    simp only [Bool.and_eq_true] at h
    obtain ⟨f, hf⟩ := configMarketCap_ok h.1 h.2
    exact ⟨some f, by rw [hf]; rfl⟩
  rw [if_neg c12] at h ⊢
  exact ⟨none, rfl⟩

theorem createFromConfigE_ok {e : Json} (h : entryOk e = true) :
    ∃ r, createFromConfigE e = .ok r := by
  unfold createFromConfigE
  by_cases hm : jContains e "method" = true
  · rw [if_neg (by simp [hm])]
    have h2 : (match jGet e "method" with
        | .str m => entryOkName m e
        | _ => false) = true := by
      unfold entryOk at h
      rw [hm] at h
      simpa using h
    cases hj : jGet e "method" <;> rw [hj] at h2 <;>
      first
        | exact createByName_ok h2
        | simp at h2
  · rw [if_pos (by simp [hm])]
    exact ⟨none, rfl⟩

theorem loadFiltersE_ok :
    ∀ (es : List Json), (∀ e ∈ es, ∃ r, createFromConfigE e = .ok r) →
      ∀ acc, loadFiltersE es acc = .ok (acc ++ es.filterMap parsedFilter)
  | [], _, acc => by simp [loadFiltersE]
  | e :: es, h, acc => by
    obtain ⟨r, hr⟩ := h e (List.mem_cons_self e es)
    have hrest := loadFiltersE_ok es (fun x hx => h x (List.mem_cons_of_mem _ hx))
    cases r with
    | none =>
      simp only [loadFiltersE, hr]
      rw [hrest acc]
      simp [List.filterMap_cons, parsedFilter, hr]
    | some f =>
      simp only [loadFiltersE, hr]
      rw [hrest (acc ++ [f])]
      simp [List.filterMap_cons, parsedFilter, hr]

/-! ### Facts used by several claims: which pair the Volume selector keeps -/

theorem volumeSel_some {k : SortKey} {minv : ℚ} {tk : Tickers} {p : String}
    {v : ℚ} (h : volumeSel k minv tk p = some v) :
    ∃ t, List.lookup p tk = some t ∧ v = metricValue k t ∧ ¬ v < minv := by
  unfold volumeSel at h
  cases hl : List.lookup p tk with
  | none => rw [hl] at h; cases h
  | some t =>
    rw [hl] at h
    dsimp only at h
    split at h
    · cases h
    · injection h with hv
      rename_i hnl
      refine ⟨t, rfl, hv.symm, ?_⟩
      rw [← hv]
      exact hnl

theorem volumeSel_tickMetric {k : SortKey} {minv : ℚ} {tk : Tickers}
    {p : String} {v : ℚ} (h : volumeSel k minv tk p = some v) :
    tickMetric tk k p = v := by
  obtain ⟨t, hl, hv, _⟩ := volumeSel_some h
  unfold tickMetric
  rw [hl, hv]

/-! ### Concrete fixtures used by witnesses and counterexamples -/

/-- A ticker record whose only meaningful statistic is the quote volume. -/
def qvTicker (sym : String) (qv : ℚ) : TickerInfo :=
  ⟨sym, 1, 1, 1, 1, 1, 0, qv, 0⟩

/-- Two symbols with exactly equal quote volume. -/
def tkTie : Tickers := [("PUSDT", qvTicker "PUSDT" 100), ("QUSDT", qvTicker "QUSDT" 100)]

/-- Two markets with exactly equal market cap (ranks 1 and 2). -/
def mktsTie : List MarketInfo :=
  [⟨"PUSDT", true, 0, 100, 1⟩, ⟨"QUSDT", true, 0, 100, 2⟩]

/-- The spec scenario snapshot: quote volumes A=500, B=50, C=300, D absent. -/
def tkScenario : Tickers :=
  [("A", qvTicker "A" 500), ("B", qvTicker "B" 50), ("C", qvTicker "C" 300)]

/-- A fixed environment: insertion-sort for std::sort, identity for the
seeded shuffle, epoch time 0. -/
def env0 : Env := ⟨insertionSortDesc, fun _ l => l, 0⟩

/-- An identity run-randomness (a legal random shuffle draw). -/
def rnd0 : List String → List String := fun l => l

/-- A reversing run-randomness (another legal random shuffle draw). -/
def rndRev : List String → List String := fun l => l.reverse

def st0 : MState := ⟨["OLDUSDT"], [], 0, 0, 60⟩

/-! ### The claims -/

/-- C1: the claim asserts that the ranking filters (Volume and
MarketCapRank) sort stably, so pairs with exactly equal metric values keep
their relative input order.  The source sorts with `std::sort`
(`time_utils.cpp` lines 451 and 919), which guarantees only a sorted
permutation and specifies nothing about equal elements, so no stability
guarantee exists: this theorem exhibits a `std::sort` implementation
satisfying the full `std::sort` contract (`SortSpec`) under which both
filters emit two equal-metric pairs in reversed input order.  The spec's
tie-break rule would require `std::stable_sort`. -/
theorem claim_C1 : SortSpec revInsertionSort ∧
    volumeFilter revInsertionSort 20 0 SortKey.QuoteVolume tkTie ["PUSDT", "QUSDT"]
      = ["QUSDT", "PUSDT"] ∧
    marketCapFilter revInsertionSort 20 100 mktsTie ["PUSDT", "QUSDT"]
      = ["QUSDT", "PUSDT"] :=
  ⟨sortSpec_revInsertionSort, by decide, by decide⟩

/-- C2: if the market-metadata provider yields no pairs (none set, none
returned, or none active), refresh() returns before touching any state, so
the published pair list is unchanged. -/
theorem claim_C2 (env : Env) (rnd : List String → List String)
    (inp : RefreshInput) (st : MState) (h : activeSymbols inp = []) :
    (refresh env rnd inp st).pairs = st.pairs := by
  rw [refresh_of_noActive h]

def inpNoActive : RefreshInput := ⟨some [⟨"BTCUSDT", false, 0, 0, 0⟩], some []⟩

theorem claim_C2_witness :
    activeSymbols inpNoActive = [] ∧
    (refresh env0 rnd0 inpNoActive st0).pairs = st0.pairs :=
  ⟨rfl, claim_C2 env0 rnd0 inpNoActive st0 rfl⟩

/-- C3: for every conforming std::sort, configuration with number_assets
`n ≥ 0`, metric and ticker snapshot, the Volume filter returns at most `n`
pairs, ordered non-increasing by the configured metric, each present in the
ticker snapshot and in the input with metric at least min_value; and the
spec scenario (quote volumes A=500, B=50, C=300, D absent,
number_assets=2, min_value=0) yields exactly [A, C]. -/
theorem claim_C3 :
    (∀ (sortf : List (String × ℚ) → List (String × ℚ)), SortSpec sortf →
      ∀ (n : ℤ), 0 ≤ n →
        ∀ (minv : ℚ) (k : SortKey) (tk : Tickers) (pairs : List String),
          ((volumeFilter sortf n minv k tk pairs).length : ℤ) ≤ n ∧
          (volumeFilter sortf n minv k tk pairs).Pairwise
            (fun a b => tickMetric tk k b ≤ tickMetric tk k a) ∧
          ∀ p ∈ volumeFilter sortf n minv k tk pairs,
            (List.lookup p tk).isSome ∧ p ∈ pairs ∧ minv ≤ tickMetric tk k p)
    ∧ (∀ sortf, SortSpec sortf →
        volumeFilter sortf 2 0 SortKey.QuoteVolume tkScenario ["A", "B", "C", "D"]
          = ["A", "C"]) := by
  constructor
  · intro sortf hs n hn minv k tk pairs
    rw [volumeFilter_eq_rankFilter]
    refine ⟨rankFilter_length n _ pairs hn, ?_, ?_⟩
    · refine (rankFilter_sorted hs n _ pairs).imp_of_mem ?_
      intro a b ha hb hr
      obtain ⟨va, hga, _⟩ := rankFilter_mem hs n _ pairs a ha
      obtain ⟨vb, hgb, _⟩ := rankFilter_mem hs n _ pairs b hb
      rw [volumeSel_tickMetric hga, volumeSel_tickMetric hgb]
      exact hr va vb hga hgb
    · intro p hp
      obtain ⟨v, hg, hmem⟩ := rankFilter_mem hs n _ pairs p hp
      obtain ⟨t, hl, hv, hnl⟩ := volumeSel_some hg
      refine ⟨by rw [hl]; rfl, hmem, ?_⟩
      rw [volumeSel_tickMetric hg]
      exact not_lt.mp hnl
  · intro sortf hs
    have hsel : selectWith (volumeSel SortKey.QuoteVolume 0 tkScenario)
        ["A", "B", "C", "D"] = [("A", 500), ("B", 50), ("C", 300)] := by decide
    have htarget : sortf [("A", 500), ("B", 50), ("C", 300)]
        = [("A", 500), ("C", 300), ("B", 50)] := by
      refine sorted_perm_eq_of_distinct ((hs _).1.trans ?_) (hs _).2 ?_ ?_
      · decide
      · decide
      · decide
    show (takeTopN 2 (sortf (selectWith (volumeSel SortKey.QuoteVolume 0 tkScenario)
        ["A", "B", "C", "D"]))).map Prod.fst = ["A", "C"]
    rw [hsel, htarget]
    decide

theorem claim_C3_witness :
    SortSpec insertionSortDesc ∧ (0 : ℤ) ≤ 2 ∧
    volumeFilter insertionSortDesc 2 0 SortKey.QuoteVolume tkScenario
      ["A", "B", "C", "D"] = ["A", "C"] ∧
    ((volumeFilter insertionSortDesc 2 0 SortKey.QuoteVolume tkScenario
      ["A", "B", "C", "D"]).length : ℤ) ≤ 2 :=
  ⟨sortSpec_insertionSortDesc, by decide,
   claim_C3.2 insertionSortDesc sortSpec_insertionSortDesc,
   (claim_C3.1 insertionSortDesc sortSpec_insertionSortDesc 2 (by decide) 0
     SortKey.QuoteVolume tkScenario ["A", "B", "C", "D"]).1⟩

/-- C4: with unchanged provider outputs and a chain containing no
zero/auto-seeded Shuffle filter (and no undefined-behaviour Offset
configuration), a second refresh() publishes exactly the list the first one
published, whatever the per-run random source does in either run. -/
theorem claim_C4 (env : Env) (rnd1 rnd2 : List String → List String)
    (inp : RefreshInput) (st : MState) (hz : NoZeroSeedShuffle st.filters)
    (hd : DefinedChain st.filters) :
    (refresh env rnd2 inp (refresh env rnd1 inp st)).pairs
      = (refresh env rnd1 inp st).pairs := by
  by_cases hact : (activeSymbols inp).isEmpty = true
  · have h0 : activeSymbols inp = [] := List.isEmpty_iff.mp hact
    rw [refresh_of_noActive h0, refresh_of_noActive h0]
  · obtain ⟨⟨out, n⟩, hout⟩ := Option.isSome_iff_exists.mp
      (@runChain_isSome env rnd1 (theTickers inp) st.filters hd (activeSymbols inp))
    have hout2 : runChain env rnd2 (theTickers inp) st.filters (activeSymbols inp)
        = some (out, n) := by
      rw [← @runChain_rnd_indep env (theTickers inp) rnd1 rnd2 st.filters hz
        (activeSymbols inp)]
      exact hout
    have hfil : (refresh env rnd1 inp st).filters = st.filters :=
      refresh_filters env rnd1 inp st
    have h1 : (refresh env rnd1 inp st).pairs = out := by
      simp only [refresh]
      rw [if_neg hact, hout]
    have h2 : ∀ st1 : MState, st1.filters = st.filters →
        (refresh env rnd2 inp st1).pairs = out := by
      intro st1 hf1
      simp only [refresh]
      rw [if_neg hact, hf1, hout2]
    rw [h1, h2 (refresh env rnd1 inp st) hfil]

def inpTwo : RefreshInput :=
  ⟨some [⟨"BTCUSDT", true, 0, 0, 0⟩, ⟨"ETHUSDT", true, 0, 0, 0⟩], some []⟩

def stSeeded : MState := ⟨[], [.shuffleFilter 7], 0, 0, 60⟩

theorem claim_C4_witness :
    NoZeroSeedShuffle stSeeded.filters ∧ DefinedChain stSeeded.filters ∧
    (refresh env0 rndRev inpTwo (refresh env0 rnd0 inpTwo stSeeded)).pairs
      = (refresh env0 rnd0 inpTwo stSeeded).pairs :=
  ⟨(by
      intro f hf
      have hf2 : f ∈ [PairFilter.shuffleFilter 7] := hf
      rw [List.mem_singleton] at hf2
      subst hf2
      decide),
   (by
      intro f hf k n he
      have hf2 : f ∈ [PairFilter.shuffleFilter 7] := hf
      rw [List.mem_singleton] at hf2
      subst hf2
      cases he),
   claim_C4 env0 rnd0 rndRev inpTwo stSeeded
     (by
       intro f hf
       have hf2 : f ∈ [PairFilter.shuffleFilter 7] := hf
       rw [List.mem_singleton] at hf2
       subst hf2
       decide)
     (by
       intro f hf k n he
       have hf2 : f ∈ [PairFilter.shuffleFilter 7] := hf
       rw [List.mem_singleton] at hf2
       subst hf2
       cases he)⟩

/-- A configuration whose single filter entry has a known method but a
wrong-typed option value (number_assets given as a string). -/
def badCfg : Json :=
  .obj [("pairlist_filters", .arr
    [.obj [("method", .str "VolumePairList"), ("number_assets", .str "abc")]])]

/-- C5 counterexample: the claim says a malformed (wrong-typed) option
value is logged and skipped and loadFromConfig completes normally.  In the
source, `config["number_assets"].get<int>()` on a string value throws
nlohmann type_error, which nothing in the load path catches: the load
fails instead of skipping the entry. -/
theorem claim_C5_counterexample : loadFromConfigE badCfg st0 = .error () := rfl

/-- C5 amended: entries with a missing method field or an unknown method
name are logged and skipped and the load completes, loading the remaining
entries in order; but the load only completes normally when every present
option value (and refresh_period) is well-typed - a wrong-typed value
raises an uncaught exception that aborts the whole load. -/
theorem claim_C5 (cfg : Json) (st : MState) (h : cfgOk cfg = true) :
    ∃ st2, loadFromConfigE cfg st = .ok st2 ∧
      st2.filters = (filterEntries cfg).filterMap parsedFilter := by
  unfold cfgOk at h
  simp only [Bool.and_eq_true, List.all_eq_true] at h
  obtain ⟨hall, hrp⟩ := h
  have hload := loadFiltersE_ok (filterEntries cfg)
    (fun e he => createFromConfigE_ok (hall e he)) []
  obtain ⟨ri, hri⟩ := getIntKeyD_ok hrp st.refresh_interval
  refine ⟨MState.mk st.pairs ((filterEntries cfg).filterMap parsedFilter)
    st.refresh_count st.filter_count ri, ?_, rfl⟩
  unfold loadFromConfigE
  rw [hload, hri]
  simp

/-- A configuration exercising the skip paths: an unknown method name, a
well-formed Offset entry, and an entry with no method field. -/
def demoCfg : Json :=
  .obj [
    ("pairlist_filters", .arr [
      .obj [("method", .str "SomeUnknownFilter")],
      .obj [("method", .str "OffsetFilter"), ("offset", .num 3)],
      .obj [("note", .num 1)]]),
    ("refresh_period", .num 30)]

theorem claim_C5_witness :
    cfgOk demoCfg = true ∧
    (filterEntries demoCfg).filterMap parsedFilter = [.offsetFilter 3 0] ∧
    ∃ st2, loadFromConfigE demoCfg st0 = .ok st2 ∧
      st2.filters = (filterEntries demoCfg).filterMap parsedFilter :=
  ⟨by decide, by decide, claim_C5 demoCfg st0 (by decide)⟩

/-- The 8-element ordered input of the Offset scenario. -/
def demo8 : List String := ["p0", "p1", "p2", "p3", "p4", "p5", "p6", "p7"]

/-- C7: for non-negative offset K and number_assets N, the Offset filter
keeps positions K..K+N-1 of its input in input order (clamped to the input
length; the whole rest of the list when N = 0); on the 8-element scenario
with offset=2, number_assets=3 it keeps exactly positions 2, 3, 4. -/
theorem claim_C7 :
    (∀ (ps : List String) (K N : ℤ), 0 ≤ K → 0 ≤ N →
      offsetChecked K N ps
        = some (if N = 0 then ps.drop K.toNat else (ps.drop K.toNat).take N.toNat))
    ∧ offsetChecked 2 3 demo8 = some ["p2", "p3", "p4"] := by
  constructor
  · intro ps K N hK hN
    rw [offsetChecked_of_nonneg hK]
    by_cases h0 : N = 0
    · subst h0
      simp
    · have hpos : 0 < N := lt_of_le_of_ne hN (Ne.symm h0)
      rw [if_pos hpos, if_neg h0]
  · decide

theorem claim_C7_witness :
    (0 : ℤ) ≤ 2 ∧ (0 : ℤ) ≤ 3 ∧
    offsetChecked 2 3 demo8
      = some (if (3 : ℤ) = 0 then demo8.drop (2 : ℤ).toNat
              else (demo8.drop (2 : ℤ).toNat).take (3 : ℤ).toNat) :=
  ⟨by decide, by decide, claim_C7.1 demo8 2 3 (by decide) (by decide)⟩

def inpOneActive : RefreshInput := ⟨some [⟨"AAAUSDT", true, 0, 0, 0⟩], some []⟩

def stProducerDup : MState :=
  ⟨[], [.producerPairList (some ["XUSDT", "XUSDT"]) "main"], 0, 0, 60⟩

def inpDupActive : RefreshInput :=
  ⟨some [⟨"AAAUSDT", true, 0, 0, 0⟩, ⟨"AAAUSDT", true, 0, 0, 0⟩], some []⟩

def stNoFilters : MState := ⟨[], [], 0, 0, 60⟩

/-- C8 counterexample: the uniqueness invariant fails at two points.  A
ProducerOverride filter substitutes the remote provider's list verbatim, so
a duplicated remote list is published as-is; and the seeding loop pushes
one symbol per active market record, so a market provider returning two
active records with the same symbol seeds (and here publishes) a duplicated
working set. -/
theorem claim_C8_counterexample :
    (refresh env0 rnd0 inpOneActive stProducerDup).pairs = ["XUSDT", "XUSDT"] ∧
    ¬ (refresh env0 rnd0 inpOneActive stProducerDup).pairs.Nodup ∧
    (refresh env0 rnd0 inpDupActive stNoFilters).pairs = ["AAAUSDT", "AAAUSDT"] ∧
    ¬ (refresh env0 rnd0 inpDupActive stNoFilters).pairs.Nodup :=
  ⟨by decide, by decide, by decide, by decide⟩

/-- C8 amended: in a defined-behaviour refresh run, every filter except
ProducerOverride preserves duplicate-freeness of the working set, and
ProducerOverride outputs exactly its remote provider's list; hence the
published list is duplicate-free provided the seeded active symbols are
pairwise distinct and every set remote provider reports a duplicate-free
list (and the prior published list was duplicate-free, for the no-pairs
early return). -/
theorem claim_C8 (env : Env) (rnd : List String → List String)
    (inp : RefreshInput) (st : MState) (hsort : SortSpec env.sortf)
    (hsh : ShuffleSpec env) (hrnd : RndSpec rnd)
    (hd : DefinedChain st.filters) (hpn : ProducerListsNodup st.filters)
    (hact : (activeSymbols inp).Nodup) (hst : st.pairs.Nodup) :
    (refresh env rnd inp st).pairs.Nodup := by
  by_cases he : (activeSymbols inp).isEmpty = true
  · rw [refresh_of_noActive (List.isEmpty_iff.mp he)]
    exact hst
  · obtain ⟨⟨out, n⟩, hout⟩ := Option.isSome_iff_exists.mp
      (@runChain_isSome env rnd (theTickers inp) st.filters hd (activeSymbols inp))
    have hpairs : (refresh env rnd inp st).pairs = out := by
      simp only [refresh]
      rw [if_neg he, hout]
    rw [hpairs]
    exact runChain_nodup hsort hsh hrnd st.filters hpn (activeSymbols inp) out n
      hact hout

def stProducerOk : MState :=
  ⟨[], [.producerPairList (some ["XUSDT", "YUSDT"]) "main", .blacklistFilter ["XUSDT"]],
   0, 0, 60⟩

theorem claim_C8_witness :
    SortSpec env0.sortf ∧ ShuffleSpec env0 ∧ RndSpec rnd0 ∧
    DefinedChain stProducerOk.filters ∧ ProducerListsNodup stProducerOk.filters ∧
    (activeSymbols inpOneActive).Nodup ∧ stProducerOk.pairs.Nodup ∧
    (refresh env0 rnd0 inpOneActive stProducerOk).pairs.Nodup :=
  ⟨sortSpec_insertionSortDesc,
   (fun _ l => List.Perm.refl l),
   (fun l => List.Perm.refl l),
   (by
     intro f hf k n he
     have hf2 : f ∈ [PairFilter.producerPairList (some ["XUSDT", "YUSDT"]) "main",
       PairFilter.blacklistFilter ["XUSDT"]] := hf
     rcases List.mem_cons.mp hf2 with h1 | h1
     · subst h1; cases he
     · rw [List.mem_singleton] at h1; subst h1; cases he),
   (by
     intro f hf l nm he
     have hf2 : f ∈ [PairFilter.producerPairList (some ["XUSDT", "YUSDT"]) "main",
       PairFilter.blacklistFilter ["XUSDT"]] := hf
     rcases List.mem_cons.mp hf2 with h1 | h1
     · subst h1
       injection he with he1 he2
       injection he1 with he1
       subst he1
       decide
     · rw [List.mem_singleton] at h1; subst h1; cases he),
   (by decide), (by decide),
   claim_C8 env0 rnd0 inpOneActive stProducerOk sortSpec_insertionSortDesc
     (fun _ l => List.Perm.refl l) (fun l => List.Perm.refl l)
     (by
       intro f hf k n he
       have hf2 : f ∈ [PairFilter.producerPairList (some ["XUSDT", "YUSDT"]) "main",
         PairFilter.blacklistFilter ["XUSDT"]] := hf
       rcases List.mem_cons.mp hf2 with h1 | h1
       · subst h1; cases he
       · rw [List.mem_singleton] at h1; subst h1; cases he)
     (by
       intro f hf l nm he
       have hf2 : f ∈ [PairFilter.producerPairList (some ["XUSDT", "YUSDT"]) "main",
         PairFilter.blacklistFilter ["XUSDT"]] := hf
       rcases List.mem_cons.mp hf2 with h1 | h1
       · subst h1
         injection he with he1 he2
         injection he1 with he1
         subst he1
         decide
       · rw [List.mem_singleton] at h1; subst h1; cases he)
     (by decide) (by decide)⟩

/-- C9 counterexample: configure accepts a negative offset (get<int> does
not reject it), and on a non-empty input with a negative offset the filter
loop's first read `pairs[start]` is out of bounds - the filter is not
in-bounds-total for every configuration configure accepts. -/
theorem claim_C9_counterexample :
    createFromConfigE (.obj [("method", .str "OffsetFilter"), ("offset", .num (-1))])
      = .ok (some (.offsetFilter (-1) 0)) ∧
    offsetChecked (-1) 0 ["AUSDT"] = none :=
  ⟨rfl, rfl⟩

/-- C9 amended: for every non-negative configured offset (and any
number_assets value, negative included), every index the loop reads is
within bounds and the filter totally returns a well-defined result;
negative offsets make the loop read out of bounds whenever it runs. -/
theorem claim_C9 (K N : ℤ) (ps : List String) (hK : 0 ≤ K) :
    ∃ out, offsetChecked K N ps = some out := by
  rw [offsetChecked_of_nonneg hK]
  exact ⟨_, rfl⟩

theorem claim_C9_witness :
    (0 : ℤ) ≤ 2 ∧ ∃ out, offsetChecked 2 (-5) ["a", "b", "c"] = some out :=
  ⟨by decide, claim_C9 2 (-5) ["a", "b", "c"] (by decide)⟩

/-- C10: refresh() checks for an empty working set before each filter, so
once some prefix of the chain produces the empty list, appending any
further filters (in particular a ProducerOverride, even though its own
filter method ignores its input) changes neither the published result -
still empty - nor the number of filters executed. -/
theorem claim_C10 (env : Env) (rnd : List String → List String) (tk : Tickers) :
    ∀ (c1 : List PairFilter) (ps : List String) (n : ℕ),
      runChain env rnd tk c1 ps = some ([], n) →
      ∀ c2 : List PairFilter, runChain env rnd tk (c1 ++ c2) ps = some ([], n)
  | [], ps, n, h, c2 => by
    simp only [runChain] at h
    injection h with h1
    injection h1 with ha hb
    subst ha
    subst hb
    cases c2 with
    | nil => rfl
    | cons f fs => rfl
  | f :: fs, ps, n, h, c2 => by
    rw [List.cons_append]
    simp only [runChain] at h ⊢
    split at h
    · rename_i hemp
      rw [if_pos hemp]
      exact h
    · rename_i hemp
      rw [if_neg hemp]
      cases hap : applyFilter env rnd tk f ps with
      | none => rw [hap] at h; cases h
      | some ps' =>
        rw [hap] at h
        dsimp only at h ⊢
        cases hrc : runChain env rnd tk fs ps' with
        | none => rw [hrc] at h; cases h
        | some pr =>
          obtain ⟨out', n'⟩ := pr
          rw [hrc] at h
          injection h with h1
          injection h1 with ha hb
          subst ha
          subst hb
          rw [claim_C10 env rnd tk fs ps' n' hrc c2]

def chainKill : List PairFilter := [.blacklistFilter ["AUSDT"]]

def chainProducer : List PairFilter := [.producerPairList (some ["XUSDT"]) "main"]

theorem claim_C10_witness :
    runChain env0 rnd0 [] chainKill ["AUSDT"] = some ([], 1) ∧
    runChain env0 rnd0 [] (chainKill ++ chainProducer) ["AUSDT"] = some ([], 1) :=
  ⟨by decide, claim_C10 env0 rnd0 [] chainKill ["AUSDT"] 1 (by decide) chainProducer⟩

end CT
